import Mathlib

/-!
# Colored squares: the `View` renderer

A shallow embedding of `src/view.cpp` (class `View`, a `QOpenGLWidget`) and of the
GLM functions it calls, followed by theorems about the projection computed on
resize, the draw sequence of a frame, the pyramid layout and the teardown.

Conventions of the embedding.

* Scalars. The C++ `float` values are modelled by exact rationals `ℚ`: a decimal
  literal such as `0.35f` is the rational `35/100`, `static_cast<float>(w)` is the
  integer `w` itself, and `+ - *` are exact. Rounding is not modelled.
* Division. A float division whose divisor is zero yields an infinity or a NaN;
  these have no rational counterpart, so division is `fdiv`, which returns `none`
  for a zero divisor, and a matrix computed from such a value is `none` as a whole.
* Trigonometry. `cos` and `sin` of the rotation angle `glm::radians(-90.0f)` are
  not rational functions; the two values are parameters `c` and `sn` of the
  functions that rotate. The exact values are `c = 0`, `sn = -1`.
* OpenGL. A GL or Qt call is an event `GLCall`; a member function of `View` maps
  the object state to the new state and the list of calls it issued, in order.
-/

namespace ColoredSquares

/-! ## GLM vectors and matrices -/

/-- The type `glm::vec3`. -/
structure Vec3 where
  x : ℚ
  y : ℚ
  z : ℚ
  deriving DecidableEq

/-- The type `glm::vec4`; for a colour the components are `r g b a` in this order. -/
structure Vec4 where
  x : ℚ
  y : ℚ
  z : ℚ
  w : ℚ
  deriving DecidableEq

/-- Component-wise sum, `glm::vec4 operator+`. -/
def Vec4.add (a b : Vec4) : Vec4 :=
  ⟨a.x + b.x, a.y + b.y, a.z + b.z, a.w + b.w⟩

/-- Vector times scalar, `glm::vec4 operator*(vec4, float)`. -/
def Vec4.scale (a : Vec4) (k : ℚ) : Vec4 :=
  ⟨a.x * k, a.y * k, a.z * k, a.w * k⟩

/-- The type `glm::mat4`, stored by columns as in GLM: `m[i]` is the column `ci`, and
`m[i][j]` is its component number `j` (the entry of row `j`). -/
structure Mat4 where
  c0 : Vec4
  c1 : Vec4
  c2 : Vec4
  c3 : Vec4
  deriving DecidableEq

/-- The value `glm::mat4(1.0f)`: the identity matrix. -/
def Mat4.identity : Mat4 :=
  ⟨⟨1, 0, 0, 0⟩, ⟨0, 1, 0, 0⟩, ⟨0, 0, 1, 0⟩, ⟨0, 0, 0, 1⟩⟩

/-- Matrix times column vector, `mat4 * vec4` (GLM, and GLSL in the vertex
shader): the combination of the columns of `m` weighted by the components of `v`. -/
def Mat4.mulVec (m : Mat4) (v : Vec4) : Vec4 :=
  (((m.c0.scale v.x).add (m.c1.scale v.y)).add (m.c2.scale v.z)).add (m.c3.scale v.w)

/-- Matrix product, `glm::mat4 operator*(mat4, mat4)`: column `i` of the result is
`m1` applied to column `i` of `m2`. -/
def Mat4.mul (m1 m2 : Mat4) : Mat4 :=
  ⟨m1.mulVec m2.c0, m1.mulVec m2.c1, m1.mulVec m2.c2, m1.mulVec m2.c3⟩

/-- GLM's `glm::translate(m, v)`: the first three columns of `m` are kept and the last is
`m[0] * v[0] + m[1] * v[1] + m[2] * v[2] + m[3]`. -/
def translate (m : Mat4) (v : Vec3) : Mat4 :=
  { m with c3 := (((m.c0.scale v.x).add (m.c1.scale v.y)).add (m.c2.scale v.z)).add m.c3 }

/-- GLM's `glm::rotate(m, angle, v)` for an axis `v` of length one, with `c = cos angle`
and `sn = sin angle` passed in. GLM first normalises `v`; every axis in `view.cpp`
is `(1, 0, 0)`, which normalisation leaves as it is. The 3x3 block `Rotate` is
GLM's, entry by entry, and the result is `m` times that block, last column kept. -/
def rotate (m : Mat4) (c sn : ℚ) (axis : Vec3) : Mat4 :=
  let temp : Vec3 := ⟨(1 - c) * axis.x, (1 - c) * axis.y, (1 - c) * axis.z⟩
  let r00 := c + temp.x * axis.x
  let r01 := temp.x * axis.y + sn * axis.z
  let r02 := temp.x * axis.z - sn * axis.y
  let r10 := temp.y * axis.x - sn * axis.z
  let r11 := c + temp.y * axis.y
  let r12 := temp.y * axis.z + sn * axis.x
  let r20 := temp.z * axis.x + sn * axis.y
  let r21 := temp.z * axis.y - sn * axis.x
  let r22 := c + temp.z * axis.z
  ⟨((m.c0.scale r00).add (m.c1.scale r01)).add (m.c2.scale r02),
   ((m.c0.scale r10).add (m.c1.scale r11)).add (m.c2.scale r12),
   ((m.c0.scale r20).add (m.c1.scale r21)).add (m.c2.scale r22),
   m.c3⟩

/-- GLM's `glm::scale(m, v)`: column `i` of `m` times `v[i]` for the first three columns,
the last column kept. -/
def scale (m : Mat4) (v : Vec3) : Mat4 :=
  ⟨m.c0.scale v.x, m.c1.scale v.y, m.c2.scale v.z, m.c3⟩

/-- Float division: `none` when the divisor is zero (the float result is then an
infinity or a NaN), the exact quotient otherwise. -/
def fdiv (a b : ℚ) : Option ℚ :=
  if b = 0 then none else some (a / b)

/-- The three divisors of `glm::ortho`: `right - left`, `top - bottom` and
`zFar - zNear`. -/
def orthoDivisors (left right bottom top zNear zFar : ℚ) : List ℚ :=
  [right - left, top - bottom, zFar - zNear]

/-- GLM's `glm::ortho(left, right, bottom, top, zNear, zFar)` in GLM's default clip
convention (right-handed, depth from -1 to 1): the identity with the entries
`[0][0]`, `[1][1]`, `[2][2]`, `[3][0]`, `[3][1]`, `[3][2]` overwritten. The result
is `none` when one of the six divisions has a zero divisor. -/
def ortho (left right bottom top zNear zFar : ℚ) : Option Mat4 := do
  let m00 ← fdiv 2 (right - left)
  let m11 ← fdiv 2 (top - bottom)
  let m22 ← fdiv 2 (zFar - zNear)
  let m30 ← fdiv (right + left) (right - left)
  let m31 ← fdiv (top + bottom) (top - bottom)
  let m32 ← fdiv (zFar + zNear) (zFar - zNear)
  pure ⟨⟨m00, 0, 0, 0⟩, ⟨0, m11, 0, 0⟩, ⟨0, 0, -m22, 0⟩, ⟨-m30, -m31, -m32, 1⟩⟩

/-! ## OpenGL calls and the state of `View` -/

/-- The constant `GL_COLOR_BUFFER_BIT` of the OpenGL headers. -/
def GL_COLOR_BUFFER_BIT : Nat := 0x4000

/-- The constant `GL_DEPTH_BUFFER_BIT` of the OpenGL headers. -/
def GL_DEPTH_BUFFER_BIT : Nat := 0x100

/-- The constant `GL_TRIANGLES` of the OpenGL headers: every three vertices are one
independent triangle. -/
def GL_TRIANGLES : Nat := 4

/-- One call that `View` makes into Qt or OpenGL, with its arguments. A matrix
argument is `none` when it has an entry that is not a finite number. -/
inductive GLCall where
  | makeCurrent
  | doneCurrent
  | glDeleteBuffers (n : Nat) (buffer : Nat)
  | glDeleteVertexArrays (n : Nat) (array : Nat)
  | glDeleteProgram (program : Nat)
  | glViewport (x y width height : Int)
  | glClear (mask : Nat)
  | glUseProgram (program : Nat)
  | glBindVertexArray (array : Nat)
  | glUniformMatrix4fv (location : Int) (count : Nat) (transpose : Bool) (value : Option Mat4)
  | glUniform4f (location : Int) (v0 v1 v2 v3 : ℚ)
  | glDrawArrays (mode : Nat) (first : Int) (count : Nat)
  deriving DecidableEq

/-- The data members of `class View` (`view.h`) that the renderer reads or writes.
Handles are `GLuint`, uniform locations `GLint`. `projection` is `none` when the
stored matrix has an entry that is not a finite number. -/
structure View where
  shader_program_id : Nat
  uniform_location_mvp : Int
  uniform_location_color : Int
  vertex_array_object : Nat
  vertex_buffer_object : Nat
  projection : Option Mat4
  view_matrix : Mat4
  deriving DecidableEq

/-- The destructor `View::~View`: with the context current, each of the three objects is deleted
when its handle is non-zero, and each handle is then set to zero. -/
def View.destructor (s : View) : View × List GLCall :=
  let t := [GLCall.makeCurrent]
  let t := if s.vertex_buffer_object ≠ 0
    then t ++ [GLCall.glDeleteBuffers 1 s.vertex_buffer_object] else t
  let s := { s with vertex_buffer_object := 0 }
  let t := if s.vertex_array_object ≠ 0
    then t ++ [GLCall.glDeleteVertexArrays 1 s.vertex_array_object] else t
  let s := { s with vertex_array_object := 0 }
  let t := if s.shader_program_id ≠ 0
    then t ++ [GLCall.glDeleteProgram s.shader_program_id] else t
  let s := { s with shader_program_id := 0 }
  (s, t ++ [GLCall.doneCurrent])

/-! ## Resize -/

/-- The constant `half_height`, the vertical half-size of the orthographic box (`3.0f`, declared
with this value in both `resizeGL` and `paintGL`). -/
def half_height : ℚ := 3

/-- The local `aspect` of `resizeGL`:
`h > 0 ? static_cast<float>(w) / static_cast<float>(h) : 1.0f`. -/
def aspect (w h : Int) : Option ℚ :=
  if h > 0 then fdiv (w : ℚ) (h : ℚ) else some 1

/-- The local `half_width` of `resizeGL`: `aspect * half_height`. -/
def half_width (w h : Int) : Option ℚ :=
  (aspect w h).map (fun a => a * half_height)

/-- The member function `View::resizeGL(w, h)`: sets the viewport, resets `projection` to the identity
and then assigns it the orthographic box
`glm::ortho(-half_width, half_width, -half_height, half_height, -1, 1)`. -/
def View.resizeGL (s : View) (w h : Int) : View × List GLCall :=
  let t := [GLCall.glViewport 0 0 w h]
  let s := { s with projection := some Mat4.identity }
  let box : Option Mat4 :=
    (half_width w h).bind (fun hw => ortho (-hw) hw (-half_height) half_height (-1) 1)
  let s := { s with projection := box }
  (s, t)

/-! ## Painting a frame -/

/-- The constant `ground_height`: thickness of the ground strip. -/
def ground_height : ℚ := 35 / 100

/-- The constant `square_size`: unit square height in XY after rotation. -/
def square_size : ℚ := 1

/-- The constant `ground_gap`: gap between ground top and base-row bottom. -/
def ground_gap : ℚ := 32 / 100

/-- The constant `inter_row_gap`: vertical gap between rows. -/
def inter_row_gap : ℚ := 0

/-- The constant `pyramid_offset_y`: shifts the whole pyramid up or down. -/
def pyramid_offset_y : ℚ := 0

/-- The constant `ground_top_y = -half_height + ground_height`. -/
def ground_top_y : ℚ := -half_height + ground_height

/-- The constant
`base_row_center_y = ground_top_y + square_size * 0.5f + ground_gap + pyramid_offset_y`. -/
def base_row_center_y : ℚ :=
  ground_top_y + square_size * (1 / 2) + ground_gap + pyramid_offset_y

/-- The constant `second_row_center_y = base_row_center_y + square_size + inter_row_gap`. -/
def second_row_center_y : ℚ := base_row_center_y + square_size + inter_row_gap

/-- The constant `top_row_center_y = second_row_center_y + square_size + inter_row_gap`. -/
def top_row_center_y : ℚ := second_row_center_y + square_size + inter_row_gap

/-- The constant `zero` of `paintGL`. -/
def zero : ℚ := 0

/-- The constant `ground_width`: how wide the ground strip is. -/
def ground_width : ℚ := 10

/-- The array `unit_square_vertices` of `View::setup_geometry`: the six vertices (two
triangles) of the unit square in the XZ plane, uploaded once to the vertex buffer. -/
def unit_square_vertices : List Vec3 :=
  [⟨-1 / 2, 0, -1 / 2⟩, ⟨1 / 2, 0, -1 / 2⟩, ⟨1 / 2, 0, 1 / 2⟩,
   ⟨-1 / 2, 0, -1 / 2⟩, ⟨1 / 2, 0, 1 / 2⟩, ⟨-1 / 2, 0, 1 / 2⟩]

/-- The member function `View::draw_square(model, color)`: uploads `projection * view_matrix * model`
and the colour, then draws six vertices from vertex 0 as triangles. -/
def View.draw_square (s : View) (model : Mat4) (color : Vec4) : View × List GLCall :=
  let mvp := s.projection.map (fun p => (p.mul s.view_matrix).mul model)
  (s, [GLCall.glUniformMatrix4fv s.uniform_location_mvp 1 false mvp,
       GLCall.glUniform4f s.uniform_location_color color.x color.y color.z color.w,
       GLCall.glDrawArrays GL_TRIANGLES 0 6])

/-- The ground block of `paintGL`: the model matrix built by `translate`, `rotate`
and `scale` in this order, and the grey colour, as passed to `draw_square`. -/
def ground (c sn : ℚ) : List (Mat4 × Vec4) :=
  let model := Mat4.identity
  let model := translate model ⟨zero, -half_height + ground_height * (1 / 2), zero⟩
  let model := rotate model c sn ⟨1, zero, zero⟩
  let model := scale model ⟨ground_width, ground_height, 1⟩
  [(model, ⟨55 / 100, 55 / 100, 55 / 100, 1⟩)]

/-- The base-row block of `paintGL`: the arguments of its four `draw_square` calls,
in order. -/
def base_row (c sn : ℚ) : List (Mat4 × Vec4) :=
  let y := base_row_center_y
  [(rotate (translate Mat4.identity ⟨-15 / 10, y, zero⟩) c sn ⟨1, zero, zero⟩,
      ⟨1, 2 / 10, 2 / 10, 1⟩),
   (rotate (translate Mat4.identity ⟨-5 / 10, y, zero⟩) c sn ⟨1, zero, zero⟩,
      ⟨2 / 10, 1, 2 / 10, 1⟩),
   (rotate (translate Mat4.identity ⟨5 / 10, y, zero⟩) c sn ⟨1, zero, zero⟩,
      ⟨2 / 10, 6 / 10, 1, 1⟩),
   (rotate (translate Mat4.identity ⟨15 / 10, y, zero⟩) c sn ⟨1, zero, zero⟩,
      ⟨1, 6 / 10, 2 / 10, 1⟩)]

/-- The second-row block of `paintGL`: the arguments of its three `draw_square`
calls, in order. -/
def second_row (c sn : ℚ) : List (Mat4 × Vec4) :=
  let y := second_row_center_y
  [(rotate (translate Mat4.identity ⟨-1, y, zero⟩) c sn ⟨1, zero, zero⟩,
      ⟨8 / 10, 2 / 10, 1, 1⟩),
   (rotate (translate Mat4.identity ⟨0, y, 0⟩) c sn ⟨1, 0, 0⟩,
      ⟨1, 9 / 10, 2 / 10, 1⟩),
   (rotate (translate Mat4.identity ⟨1, y, 0⟩) c sn ⟨1, 0, 0⟩,
      ⟨2 / 10, 1, 8 / 10, 1⟩)]

/-- The top-row block of `paintGL`: the arguments of its one `draw_square` call. -/
def top_row (c sn : ℚ) : List (Mat4 × Vec4) :=
  let y := top_row_center_y
  [(rotate (translate Mat4.identity ⟨zero, y, zero⟩) c sn ⟨1, zero, zero⟩,
      ⟨9 / 10, 3 / 10, 4 / 10, 1⟩)]

/-- Runs `draw_square` on each pair of arguments in turn, threading the state and
appending the calls issued to `t`. -/
def View.draw_squares (s : View) (t : List GLCall) :
    List (Mat4 × Vec4) → View × List GLCall
  | [] => (s, t)
  | (model, color) :: rest =>
    let r := s.draw_square model color
    View.draw_squares r.1 (t ++ r.2) rest

/-- The member function `View::paintGL`, with `c` and `sn` the cosine and sine of
`glm::radians(-90.0f)`: clears, binds the program and the vertex array, draws the
ground, the base row, the second row and the top row, and unbinds. -/
def View.paintGL (c sn : ℚ) (s : View) : View × List GLCall :=
  let t := [GLCall.glClear (GL_COLOR_BUFFER_BIT ||| GL_DEPTH_BUFFER_BIT),
            GLCall.glUseProgram s.shader_program_id,
            GLCall.glBindVertexArray s.vertex_array_object]
  let r := s.draw_squares t (ground c sn)
  let r := r.1.draw_squares r.2 (base_row c sn)
  let r := r.1.draw_squares r.2 (second_row c sn)
  let r := r.1.draw_squares r.2 (top_row c sn)
  (r.1, r.2 ++ [GLCall.glBindVertexArray 0, GLCall.glUseProgram 0])

/-! ## Observations on a trace and sample data -/

/-- The delete calls of a trace, in order. -/
def deletions (t : List GLCall) : List GLCall :=
  t.filter fun
    | GLCall.glDeleteBuffers _ _ => true
    | GLCall.glDeleteVertexArrays _ _ => true
    | GLCall.glDeleteProgram _ => true
    | _ => false

/-- The draw calls of a trace, in order: mode, first vertex, vertex count. -/
def drawCalls (t : List GLCall) : List (Nat × Int × Nat) :=
  t.filterMap fun
    | GLCall.glDrawArrays mode first count => some (mode, first, count)
    | _ => none

/-- The colours uploaded by `glUniform4f` in a trace, in order. -/
def uploadedColors (t : List GLCall) : List Vec4 :=
  t.filterMap fun
    | GLCall.glUniform4f _ r g b a => some ⟨r, g, b, a⟩
    | _ => none

/-- The matrices uploaded by `glUniformMatrix4fv` in a trace, in order. -/
def uploadedMatrices (t : List GLCall) : List (Option Mat4) :=
  t.filterMap fun
    | GLCall.glUniformMatrix4fv _ _ _ m => some m
    | _ => none

/-- A sample state of `View`: the handles 3, 1 and 2, the uniform locations 0 and 1,
the identity view matrix that `initializeGL` sets, and an identity projection,
which `resizeGL` overwrites. -/
def exampleView : View :=
  { shader_program_id := 3
    uniform_location_mvp := 0
    uniform_location_color := 1
    vertex_array_object := 1
    vertex_buffer_object := 2
    projection := some Mat4.identity
    view_matrix := Mat4.identity }

/-! ## The scene as a table, after the specification -/

/-- One entry of the specification's SceneLayout: a translation, a per-axis scale
and an RGBA colour; the rotation is the same for every entry. -/
structure SceneEntry where
  translation : Vec3
  scaling : Vec3
  color : Vec4
  deriving DecidableEq

/-- The specification's SceneLayout, written out from its words: the ground strip,
then the base row, the second row and the apex, left to right, with the row
centres -1.83, -0.83 and 0.17 and a uniform scale for the pyramid squares. -/
def SceneLayout : List SceneEntry :=
  [⟨⟨0, -3 + (35 / 100) / 2, 0⟩, ⟨10, 35 / 100, 1⟩, ⟨55 / 100, 55 / 100, 55 / 100, 1⟩⟩,
   ⟨⟨-15 / 10, -183 / 100, 0⟩, ⟨1, 1, 1⟩, ⟨1, 2 / 10, 2 / 10, 1⟩⟩,
   ⟨⟨-5 / 10, -183 / 100, 0⟩, ⟨1, 1, 1⟩, ⟨2 / 10, 1, 2 / 10, 1⟩⟩,
   ⟨⟨5 / 10, -183 / 100, 0⟩, ⟨1, 1, 1⟩, ⟨2 / 10, 6 / 10, 1, 1⟩⟩,
   ⟨⟨15 / 10, -183 / 100, 0⟩, ⟨1, 1, 1⟩, ⟨1, 6 / 10, 2 / 10, 1⟩⟩,
   ⟨⟨-1, -83 / 100, 0⟩, ⟨1, 1, 1⟩, ⟨8 / 10, 2 / 10, 1, 1⟩⟩,
   ⟨⟨0, -83 / 100, 0⟩, ⟨1, 1, 1⟩, ⟨1, 9 / 10, 2 / 10, 1⟩⟩,
   ⟨⟨1, -83 / 100, 0⟩, ⟨1, 1, 1⟩, ⟨2 / 10, 1, 8 / 10, 1⟩⟩,
   ⟨⟨0, 17 / 100, 0⟩, ⟨1, 1, 1⟩, ⟨9 / 10, 3 / 10, 4 / 10, 1⟩⟩]

/-- The model matrix the specification gives an entry: the product `T · R · S` of
the translation, the rotation about the X axis and the scale, as matrices. -/
def SceneEntry.model (c sn : ℚ) (e : SceneEntry) : Mat4 :=
  ((translate Mat4.identity e.translation).mul (rotate Mat4.identity c sn ⟨1, 0, 0⟩)).mul
    (scale Mat4.identity e.scaling)

/-- The trace the specification gives a frame for a projection `P`, a view matrix
`V` and the uniform locations of the state: clear, bind, for every entry of the
table an upload of `P · V · model`, an upload of the colour and a draw of six
vertices from vertex 0 as triangles, then unbind. -/
def specFrame (c sn : ℚ) (s : View) (P : Mat4) : List GLCall :=
  [GLCall.glClear (GL_COLOR_BUFFER_BIT ||| GL_DEPTH_BUFFER_BIT),
   GLCall.glUseProgram s.shader_program_id,
   GLCall.glBindVertexArray s.vertex_array_object]
  ++ SceneLayout.flatMap (fun e =>
      [GLCall.glUniformMatrix4fv s.uniform_location_mvp 1 false
         (some ((P.mul s.view_matrix).mul (e.model c sn))),
       GLCall.glUniform4f s.uniform_location_color e.color.x e.color.y e.color.z e.color.w,
       GLCall.glDrawArrays GL_TRIANGLES 0 6])
  ++ [GLCall.glBindVertexArray 0, GLCall.glUseProgram 0]

/-! ## Lemmas -/

theorem vec4_eq_iff (a b : Vec4) :
    a = b ↔ a.x = b.x ∧ a.y = b.y ∧ a.z = b.z ∧ a.w = b.w := by
  cases a; cases b; simp

theorem mat4_eq_iff (a b : Mat4) :
    a = b ↔ a.c0 = b.c0 ∧ a.c1 = b.c1 ∧ a.c2 = b.c2 ∧ a.c3 = b.c3 := by
  cases a; cases b; simp

/-- The result of `ortho` is undefined exactly when one of its three divisors is
zero. -/
theorem ortho_eq_none_iff (l r b t n f : ℚ) :
    ortho l r b t n f = none ↔ ∃ d ∈ orthoDivisors l r b t n f, d = 0 := by
  by_cases h1 : r - l = 0 <;> by_cases h2 : t - b = 0 <;> by_cases h3 : f - n = 0 <;>
    simp [ortho, fdiv, orthoDivisors, h1, h2, h3, eq_comm]

/-- The matrix of `ortho` when its three divisors are non-zero. -/
theorem ortho_of_ne_zero (l r b t n f : ℚ) (h1 : r - l ≠ 0) (h2 : t - b ≠ 0)
    (h3 : f - n ≠ 0) :
    ortho l r b t n f = some
      ⟨⟨2 / (r - l), 0, 0, 0⟩, ⟨0, 2 / (t - b), 0, 0⟩, ⟨0, 0, -(2 / (f - n)), 0⟩,
       ⟨-((r + l) / (r - l)), -((t + b) / (t - b)), -((f + n) / (f - n)), 1⟩⟩ := by
  simp [ortho, fdiv, h1, h2, h3]

/-- The aspect ratio is always a finite number: the division is guarded. -/
theorem aspect_eq (w h : Int) :
    aspect w h = some (if h > 0 then (w : ℚ) / (h : ℚ) else 1) := by
  unfold aspect
  split_ifs with hh
  · have : (h : ℚ) ≠ 0 := by exact_mod_cast (ne_of_gt hh)
    simp [fdiv, this]
  · rfl

/-- A run of `draw_square` calls leaves the state as it is and appends the calls of
each, in order. -/
theorem draw_squares_eq (s : View) (t : List GLCall) (l : List (Mat4 × Vec4)) :
    s.draw_squares t l = (s, t ++ l.flatMap (fun a => (s.draw_square a.1 a.2).2)) := by
  induction l generalizing t with
  | nil => simp [View.draw_squares]
  | cons a rest ih =>
    obtain ⟨model, color⟩ := a
    simp only [View.draw_squares, List.flatMap_cons]
    have hs : (s.draw_square model color).1 = s := rfl
    rw [hs, ih, List.append_assoc]

/-- The trace of a frame: the three opening calls, the three calls of each
`draw_square` in block order, the two closing calls; the state is the one given. -/
theorem paintGL_eq (c sn : ℚ) (s : View) :
    s.paintGL c sn =
      (s, [GLCall.glClear (GL_COLOR_BUFFER_BIT ||| GL_DEPTH_BUFFER_BIT),
           GLCall.glUseProgram s.shader_program_id,
           GLCall.glBindVertexArray s.vertex_array_object]
          ++ (ground c sn ++ base_row c sn ++ second_row c sn ++ top_row c sn).flatMap
               (fun a => (s.draw_square a.1 a.2).2)
          ++ [GLCall.glBindVertexArray 0, GLCall.glUseProgram 0]) := by
  simp only [View.paintGL, draw_squares_eq, List.flatMap_append, List.append_assoc]

/-! ## Teardown -/

/-- C3. For every state of the three handles, the destructor issues a delete for
exactly the non-zero handles (buffer, vertex array, program, in this order), leaves
the three handles zero and the other fields as they were; a second run on the
resulting state issues no delete and leaves that state unchanged. -/
theorem destructor_deletes_nonzero_and_is_idempotent (s : View) :
    deletions s.destructor.2 =
        (if s.vertex_buffer_object ≠ 0
          then [GLCall.glDeleteBuffers 1 s.vertex_buffer_object] else [])
        ++ (if s.vertex_array_object ≠ 0
          then [GLCall.glDeleteVertexArrays 1 s.vertex_array_object] else [])
        ++ (if s.shader_program_id ≠ 0
          then [GLCall.glDeleteProgram s.shader_program_id] else [])
      ∧ s.destructor.1 =
          { s with vertex_buffer_object := 0, vertex_array_object := 0, shader_program_id := 0 }
      ∧ s.destructor.1.vertex_buffer_object = 0
      ∧ s.destructor.1.vertex_array_object = 0
      ∧ s.destructor.1.shader_program_id = 0
      ∧ deletions s.destructor.1.destructor.2 = []
      ∧ s.destructor.1.destructor.1 = s.destructor.1 := by
  refine ⟨?_, rfl, rfl, rfl, rfl, ?_, rfl⟩
  · by_cases h1 : s.vertex_buffer_object = 0 <;> by_cases h2 : s.vertex_array_object = 0 <;>
      by_cases h3 : s.shader_program_id = 0 <;>
      simp [View.destructor, deletions, h1, h2, h3]
  · simp [View.destructor, deletions]

/-! ## Row centres -/

/-- C7. The row centres derived in `paintGL` are one unit apart: the second row is
`square_size + inter_row_gap = 1` above the base row and the top row the same
above the second; with the constants of the source the centres are -1.83, -0.83
and 0.17. -/
theorem row_centres_one_apart :
    ground_top_y = -half_height + ground_height
      ∧ base_row_center_y = ground_top_y + square_size / 2 + ground_gap
      ∧ second_row_center_y - base_row_center_y = square_size + inter_row_gap
      ∧ top_row_center_y - second_row_center_y = square_size + inter_row_gap
      ∧ square_size + inter_row_gap = 1
      ∧ base_row_center_y = -183 / 100
      ∧ second_row_center_y = -83 / 100
      ∧ top_row_center_y = 17 / 100 := by
  simp only [top_row_center_y, second_row_center_y, base_row_center_y, ground_top_y,
    half_height, ground_height, square_size, ground_gap, inter_row_gap, pyramid_offset_y]
  norm_num

/-! ## A frame leaves the state alone -/

/-- C8. `paintGL` returns the state it was given (projection, view matrix, the
three handles and the two uniform locations), so a second frame painted right
after the first issues the same sequence of calls. -/
theorem paintGL_state_unchanged (c sn : ℚ) (s : View) :
    (s.paintGL c sn).1 = s
      ∧ ((s.paintGL c sn).1.paintGL c sn).2 = (s.paintGL c sn).2
      ∧ drawCalls ((s.paintGL c sn).1.paintGL c sn).2 = drawCalls (s.paintGL c sn).2
      ∧ uploadedMatrices ((s.paintGL c sn).1.paintGL c sn).2
          = uploadedMatrices (s.paintGL c sn).2
      ∧ uploadedColors ((s.paintGL c sn).1.paintGL c sn).2
          = uploadedColors (s.paintGL c sn).2 := by
  have h : (s.paintGL c sn).1 = s := by rw [paintGL_eq]
  refine ⟨h, ?_, ?_, ?_, ?_⟩ <;> rw [h]

/-! ## Resize -/

/-- C2. For `h = 0` and every `w` the aspect ratio is 1 with no division made, and
the projection is the orthographic box `ortho(-3, 3, -3, 3, -1, 1)`, whose divisors
6, 6 and 2 are non-zero and whose matrix is the diagonal `1/3, 1/3, -1, 1`. -/
theorem resizeGL_zero_height (s : View) (w : Int) :
    aspect w 0 = some 1
      ∧ (s.resizeGL w 0).1.projection = ortho (-3) 3 (-3) 3 (-1) 1
      ∧ orthoDivisors (-3) 3 (-3) 3 (-1) 1 = [6, 6, 2]
      ∧ (∀ d ∈ orthoDivisors (-3) 3 (-3) 3 (-1) 1, d ≠ 0)
      ∧ (s.resizeGL w 0).1.projection = some
          ⟨⟨1 / 3, 0, 0, 0⟩, ⟨0, 1 / 3, 0, 0⟩, ⟨0, 0, -1, 0⟩, ⟨0, 0, 0, 1⟩⟩ := by
  have ha : aspect w 0 = some 1 := by simp [aspect]
  have hp : (s.resizeGL w 0).1.projection = ortho (-3) 3 (-3) 3 (-1) 1 := by
    simp [View.resizeGL, half_width, ha, half_height]
  refine ⟨ha, hp, ?_, ?_, ?_⟩
  · norm_num [orthoDivisors]
  · norm_num [orthoDivisors]
  · rw [hp]; norm_num [ortho, fdiv]

/-- C10. In `resizeGL` the divisors of the orthographic box are `6 * aspect`, 6
and 2; one of them is zero exactly when `w = 0` and `h > 0` (then `half_width` is
zero), and exactly then the projection is undefined; for every other pair it is
defined. -/
theorem resizeGL_zero_divisor_iff (s : View) (w h : Int) :
    ∃ a hw : ℚ, aspect w h = some a ∧ half_width w h = some hw
      ∧ (s.resizeGL w h).1.projection = ortho (-hw) hw (-half_height) half_height (-1) 1
      ∧ orthoDivisors (-hw) hw (-half_height) half_height (-1) 1 = [6 * a, 6, 2]
      ∧ ((∃ d ∈ orthoDivisors (-hw) hw (-half_height) half_height (-1) 1, d = 0)
          ↔ (w = 0 ∧ 0 < h))
      ∧ (hw = 0 ↔ (w = 0 ∧ 0 < h))
      ∧ ((s.resizeGL w h).1.projection = none ↔ (w = 0 ∧ 0 < h))
      ∧ ((∃ P, (s.resizeGL w h).1.projection = some P) ↔ ¬ (w = 0 ∧ 0 < h)) := by
  have ha := aspect_eq w h
  set a : ℚ := if h > 0 then (w : ℚ) / (h : ℚ) else 1 with hadef
  have hhw : half_width w h = some (a * half_height) := by simp [half_width, ha]
  have hp : (s.resizeGL w h).1.projection
      = ortho (-(a * half_height)) (a * half_height) (-half_height) half_height (-1) 1 := by
    simp [View.resizeGL, hhw]
  have hd : orthoDivisors (-(a * half_height)) (a * half_height) (-half_height) half_height
      (-1) 1 = [6 * a, 6, 2] := by
    simp only [orthoDivisors, half_height]; norm_num; ring
  have hz : a = 0 ↔ (w = 0 ∧ 0 < h) := by
    rw [hadef]
    split_ifs with hh
    · have : (h : ℚ) ≠ 0 := by exact_mod_cast (ne_of_gt hh)
      simp [this, hh]
    · simp [hh]
  have hex : (∃ d ∈ orthoDivisors (-(a * half_height)) (a * half_height) (-half_height)
      half_height (-1) 1, d = 0) ↔ (w = 0 ∧ 0 < h) := by
    rw [hd, ← hz]; simp
  have hn : (s.resizeGL w h).1.projection = none ↔ (w = 0 ∧ 0 < h) := by
    rw [hp, ortho_eq_none_iff, hex]
  have hw0 : a * half_height = 0 ↔ (w = 0 ∧ 0 < h) := by
    rw [← hz]; simp [half_height]
  refine ⟨a, a * half_height, ha, hhw, hp, hd, hex, hw0, hn, ?_⟩
  rw [← hn, ← Option.isSome_iff_exists, ← Option.not_isSome_iff_eq_none, not_not]

/-- C1, amended. For window dimensions `(w, h)` with `h > 0` and `w ≠ 0` the
projection computed by `resizeGL` is the orthographic box with left `-3 * (w / h)`,
right `3 * (w / h)`, bottom -3, top 3, near -1, far 1; it sends `y = -3` and `y = 3`
to the clip coordinates -1 and 1, and `x = -3 * (w / h)` and `x = 3 * (w / h)` to
-1 and 1. -/
theorem resizeGL_projection_box (s : View) (w h : Int) (hh : 0 < h) (hw : w ≠ 0) :
    ∃ P : Mat4, (s.resizeGL w h).1.projection = some P
      ∧ ortho (-3 * ((w : ℚ) / (h : ℚ))) (3 * ((w : ℚ) / (h : ℚ))) (-3) 3 (-1) 1 = some P
      ∧ (∀ x z : ℚ, (P.mulVec ⟨x, -3, z, 1⟩).y = -1)
      ∧ (∀ x z : ℚ, (P.mulVec ⟨x, 3, z, 1⟩).y = 1)
      ∧ (∀ y z : ℚ, (P.mulVec ⟨-3 * ((w : ℚ) / (h : ℚ)), y, z, 1⟩).x = -1)
      ∧ (∀ y z : ℚ, (P.mulVec ⟨3 * ((w : ℚ) / (h : ℚ)), y, z, 1⟩).x = 1) := by
  have hq : (h : ℚ) ≠ 0 := by exact_mod_cast (ne_of_gt hh)
  have wq : (w : ℚ) ≠ 0 := by exact_mod_cast hw
  have ha : aspect w h = some ((w : ℚ) / (h : ℚ)) := by simp [aspect, hh, fdiv, hq]
  have e1 : -((w : ℚ) / (h : ℚ) * 3) = -3 * ((w : ℚ) / (h : ℚ)) := by ring
  have e2 : (w : ℚ) / (h : ℚ) * 3 = 3 * ((w : ℚ) / (h : ℚ)) := by ring
  have hp : (s.resizeGL w h).1.projection
      = ortho (-3 * ((w : ℚ) / (h : ℚ))) (3 * ((w : ℚ) / (h : ℚ))) (-3) 3 (-1) 1 := by
    simp only [View.resizeGL, half_width, ha, half_height, Option.map_some', Option.some_bind,
      e1, e2, neg_mul]
  have hr : (w : ℚ) / (h : ℚ) ≠ 0 := div_ne_zero wq hq
  have d1 : 3 * ((w : ℚ) / (h : ℚ)) - -3 * ((w : ℚ) / (h : ℚ)) ≠ 0 := by
    have : 3 * ((w : ℚ) / (h : ℚ)) - -3 * ((w : ℚ) / (h : ℚ)) = 6 * ((w : ℚ) / (h : ℚ)) := by
      ring
    rw [this]; exact mul_ne_zero (by norm_num) hr
  have ho := ortho_of_ne_zero (-3 * ((w : ℚ) / (h : ℚ))) (3 * ((w : ℚ) / (h : ℚ))) (-3) 3
    (-1) 1 d1 (by norm_num) (by norm_num)
  refine ⟨_, hp.trans ho, ho, ?_, ?_, ?_, ?_⟩
  · intro x z; simp [Mat4.mulVec, Vec4.add, Vec4.scale]; norm_num
  · intro x z; simp [Mat4.mulVec, Vec4.add, Vec4.scale]; norm_num
  · intro y z; simp only [Mat4.mulVec, Vec4.add, Vec4.scale]; field_simp; ring
  · intro y z; simp only [Mat4.mulVec, Vec4.add, Vec4.scale]; field_simp; ring

/-- C1, witness: the amended statement at the window 1200 x 700. -/
theorem resizeGL_projection_box_witness :
    (0 : Int) < 700 ∧ (1200 : Int) ≠ 0
      ∧ ∃ P : Mat4, (exampleView.resizeGL 1200 700).1.projection = some P
        ∧ ortho (-3 * (((1200 : Int) : ℚ) / ((700 : Int) : ℚ)))
            (3 * (((1200 : Int) : ℚ) / ((700 : Int) : ℚ))) (-3) 3 (-1) 1 = some P
        ∧ (∀ x z : ℚ, (P.mulVec ⟨x, -3, z, 1⟩).y = -1)
        ∧ (∀ x z : ℚ, (P.mulVec ⟨x, 3, z, 1⟩).y = 1)
        ∧ (∀ y z : ℚ,
            (P.mulVec ⟨-3 * (((1200 : Int) : ℚ) / ((700 : Int) : ℚ)), y, z, 1⟩).x = -1)
        ∧ (∀ y z : ℚ,
            (P.mulVec ⟨3 * (((1200 : Int) : ℚ) / ((700 : Int) : ℚ)), y, z, 1⟩).x = 1) :=
  ⟨by decide, by decide, resizeGL_projection_box exampleView 1200 700 (by decide) (by decide)⟩

/-- C1, counterexample: at the window 0 x 1 (so `h > 0`) the statement fails. The
box has `left = right = 0`, the divisor `right - left` is zero and the projection
is undefined; no matrix could send the one point `x = 0` to both -1 and 1. -/
theorem resizeGL_projection_box_fails_at_zero_width :
    ¬ ∃ P : Mat4, (exampleView.resizeGL 0 1).1.projection = some P
      ∧ ortho (-3 * (((0 : Int) : ℚ) / ((1 : Int) : ℚ)))
          (3 * (((0 : Int) : ℚ) / ((1 : Int) : ℚ))) (-3) 3 (-1) 1 = some P
      ∧ (∀ x z : ℚ, (P.mulVec ⟨x, -3, z, 1⟩).y = -1)
      ∧ (∀ x z : ℚ, (P.mulVec ⟨x, 3, z, 1⟩).y = 1)
      ∧ (∀ y z : ℚ, (P.mulVec ⟨-3 * (((0 : Int) : ℚ) / ((1 : Int) : ℚ)), y, z, 1⟩).x = -1)
      ∧ (∀ y z : ℚ, (P.mulVec ⟨3 * (((0 : Int) : ℚ) / ((1 : Int) : ℚ)), y, z, 1⟩).x = 1) := by
  rintro ⟨P, -, -, -, -, h5, h6⟩
  have a := h5 0 0
  have b := h6 0 0
  norm_num at a b
  rw [a] at b
  norm_num at b

/-! ## The pyramid layout -/

/-- The base-row square at X = 0.5 as `paintGL` builds it: the third of the base
row's four model matrices. -/
theorem base_row_third (c sn : ℚ) :
    ((base_row c sn).map Prod.fst)[2]?
      = some (rotate (translate Mat4.identity ⟨1 / 2, base_row_center_y, 0⟩) c sn ⟨1, 0, 0⟩) := by
  simp [base_row, zero]; norm_num

/-- C5. The translation column of the model matrices built by `paintGL`: the base
row has exactly four, at X = -1.5, -0.5, 0.5, 1.5; the second row exactly three, at
X = -1, 0, 1; the top row exactly one, at X = 0; within a row the Y component is
the same (the row centre) and every Z component is 0. -/
theorem pyramid_translation_columns (c sn : ℚ) :
    (base_row c sn).map (fun a => a.1.c3)
        = [⟨-3 / 2, base_row_center_y, 0, 1⟩, ⟨-1 / 2, base_row_center_y, 0, 1⟩,
           ⟨1 / 2, base_row_center_y, 0, 1⟩, ⟨3 / 2, base_row_center_y, 0, 1⟩]
      ∧ (second_row c sn).map (fun a => a.1.c3)
        = [⟨-1, second_row_center_y, 0, 1⟩, ⟨0, second_row_center_y, 0, 1⟩,
           ⟨1, second_row_center_y, 0, 1⟩]
      ∧ (top_row c sn).map (fun a => a.1.c3) = [⟨0, top_row_center_y, 0, 1⟩] := by
  refine ⟨?_, ?_, ?_⟩ <;>
    norm_num [base_row, second_row, top_row, rotate, translate, Mat4.identity, Vec4.add,
      Vec4.scale, zero]

/-- C6, amended. The apex model matrix is the model matrix of the base-row square
at X = 0.5 translated by half a unit to the left and by two unit-square heights
up: `apex = Translate(-0.5, 2 * square_size, 0) * base_model(X = 0.5)`. -/
theorem apex_model_from_base (c sn : ℚ) :
    ∃ base apex : Mat4, ((base_row c sn).map Prod.fst)[2]? = some base
      ∧ base.c3.x = 1 / 2
      ∧ (top_row c sn).map Prod.fst = [apex]
      ∧ apex = (translate Mat4.identity ⟨-1 / 2, 2 * square_size, 0⟩).mul base := by
  refine ⟨_, _, base_row_third c sn, ?_, rfl, ?_⟩
  · simp [rotate, translate, Mat4.identity, Vec4.add, Vec4.scale]
  · simp only [top_row, base_row, List.map, mat4_eq_iff, vec4_eq_iff, rotate, translate,
      Mat4.mul, Mat4.mulVec, Mat4.identity, Vec4.add, Vec4.scale, zero, top_row_center_y,
      second_row_center_y, square_size, inter_row_gap]
    norm_num
    ring

/-- C6, counterexample: with the exact rotation (`c = 0`, `sn = -1`) the apex
model matrix is not `Translate(0, 2 * square_size, 0) * base_model(X = 0.5)`: the
apex is centred at X = 0, the product at X = 0.5. -/
theorem apex_model_not_vertical_shift_of_base :
    ¬ ∃ base apex : Mat4, ((base_row 0 (-1)).map Prod.fst)[2]? = some base
      ∧ base.c3.x = 1 / 2
      ∧ (top_row 0 (-1)).map Prod.fst = [apex]
      ∧ apex = (translate Mat4.identity ⟨0, 2 * square_size, 0⟩).mul base := by
  rintro ⟨base, apex, hb, -, ha, h⟩
  rw [base_row_third] at hb
  have hb2 := Option.some.inj hb
  have ha2 : apex = rotate (translate Mat4.identity ⟨zero, top_row_center_y, zero⟩) 0 (-1)
      ⟨1, zero, zero⟩ := by
    simp [top_row] at ha; exact ha.symm
  have hx := congrArg (fun m : Mat4 => m.c3.x) h
  rw [ha2, ← hb2] at hx
  simp [rotate, translate, Mat4.mul, Mat4.mulVec, Mat4.identity, Vec4.add, Vec4.scale,
    zero] at hx

/-! ## The ground strip -/

/-- C9, what the code does. With the exact rotation (`c = 0`, `sn = -1`) the ground
model matrix sends `(x, y, z)` to `(10 x, z - 2.825, -0.35 y)`: the scale acts
before the rotation, so the factor `ground_height` falls on the Y axis, on which
the unit square has no extent, and the factor 1 on the Z axis, which the rotation
turns into the height. The six vertices land on the rectangle `x ∈ [-5, 5]`,
`y ∈ [-3.325, -2.325]`, `z = 0`: a strip of thickness 1, not `ground_height`,
whose top edge -2.325 is not `ground_top_y = -2.65` and lies 0.005 above the bottom
edge of the base row. -/
theorem ground_strip_image :
    ∃ (model : Mat4) (color : Vec4), ground 0 (-1) = [(model, color)]
      ∧ (∀ x y z : ℚ, model.mulVec ⟨x, y, z, 1⟩
          = ⟨ground_width * x, z + (-half_height + ground_height / 2), -(ground_height * y), 1⟩)
      ∧ unit_square_vertices.map (fun v => model.mulVec ⟨v.x, v.y, v.z, 1⟩)
          = [⟨-5, -133 / 40, 0, 1⟩, ⟨5, -133 / 40, 0, 1⟩, ⟨5, -93 / 40, 0, 1⟩,
             ⟨-5, -133 / 40, 0, 1⟩, ⟨5, -93 / 40, 0, 1⟩, ⟨-5, -93 / 40, 0, 1⟩]
      ∧ (-93 / 40 : ℚ) - (-133 / 40) = 1
      ∧ ground_height = 35 / 100
      ∧ ground_top_y = -265 / 100
      ∧ (base_row_center_y - square_size / 2) - (-93 / 40) = -1 / 200
      ∧ ground_gap = 32 / 100 := by
  refine ⟨_, _, rfl, ?_, ?_, by norm_num, rfl, ?_, ?_, rfl⟩
  · intro x y z
    simp only [scale, rotate, translate, Mat4.mulVec, Mat4.identity, Vec4.add, Vec4.scale,
      zero, ground_width, ground_height, half_height, vec4_eq_iff]
    norm_num
  · simp only [unit_square_vertices, List.map, scale, rotate, translate, Mat4.mulVec,
      Mat4.identity, Vec4.add, Vec4.scale, zero, ground_width, ground_height, half_height]
    norm_num
  · norm_num [ground_top_y, half_height, ground_height]
  · norm_num [base_row_center_y, ground_top_y, half_height, ground_height, square_size,
      ground_gap, pyramid_offset_y]

/-! ## A frame after a resize to 1200 x 700 -/

/-- The arguments of the nine `draw_square` calls of `paintGL` are the entries of
the specification's table: the chained `translate`, `rotate`, `scale` calls give
the matrix product `T · R · S`, and the colours are the table's. -/
theorem scene_eq_SceneLayout (c sn : ℚ) :
    ground c sn ++ base_row c sn ++ second_row c sn ++ top_row c sn
      = SceneLayout.map (fun e => (e.model c sn, e.color)) := by
  simp only [ground, base_row, second_row, top_row, SceneLayout, SceneEntry.model, List.map,
    List.cons_append, List.nil_append, List.cons.injEq, Prod.mk.injEq, mat4_eq_iff,
    vec4_eq_iff, scale, rotate, translate, Mat4.mul, Mat4.mulVec, Mat4.identity, Vec4.add,
    Vec4.scale, zero, ground_width, ground_height, half_height, base_row_center_y,
    second_row_center_y, top_row_center_y, ground_top_y, square_size, ground_gap,
    inter_row_gap, pyramid_offset_y]
  norm_num

/-- The projection after a resize to 1200 x 700: the box
`ortho(-36/7, 36/7, -3, 3, -1, 1)`. -/
theorem resizeGL_1200_700 (s : View) :
    (s.resizeGL 1200 700).1 =
      { s with projection := some ⟨⟨7 / 36, 0, 0, 0⟩, ⟨0, 1 / 3, 0, 0⟩, ⟨0, 0, -1, 0⟩, ⟨0, 0, 0, 1⟩⟩ } := by
  have ha : aspect 1200 700 = some (12 / 7) := by
    rw [aspect_eq]; norm_num
  simp only [View.resizeGL, half_width, ha, half_height, Option.map_some', Option.some_bind]
  norm_num [ortho, fdiv]

/-- C4. After `resizeGL(1200, 700)` a frame issues exactly nine draw calls, each of
six vertices from vertex 0 as independent triangles; the colours uploaded are, in
order, the ground grey, the four of the base row, the three of the second row and
the apex colour, every component in `[0, 1]`; the matrix uploaded before each draw
is `projection * view_matrix * model` of that square; and the whole trace is the
one the specification's table gives. -/
theorem frame_after_resize_1200_700 (c sn : ℚ) (s : View) :
    ∃ (P : Mat4) (s1 : View) (t : List GLCall),
      (s.resizeGL 1200 700).1 = s1
      ∧ s1.projection = some P
      ∧ P = ⟨⟨7 / 36, 0, 0, 0⟩, ⟨0, 1 / 3, 0, 0⟩, ⟨0, 0, -1, 0⟩, ⟨0, 0, 0, 1⟩⟩
      ∧ (s1.paintGL c sn).2 = t
      ∧ drawCalls t = List.replicate 9 (GL_TRIANGLES, 0, 6)
      ∧ (drawCalls t).length = 9
      ∧ uploadedColors t
          = [⟨55 / 100, 55 / 100, 55 / 100, 1⟩,
             ⟨1, 2 / 10, 2 / 10, 1⟩, ⟨2 / 10, 1, 2 / 10, 1⟩, ⟨2 / 10, 6 / 10, 1, 1⟩,
             ⟨1, 6 / 10, 2 / 10, 1⟩,
             ⟨8 / 10, 2 / 10, 1, 1⟩, ⟨1, 9 / 10, 2 / 10, 1⟩, ⟨2 / 10, 1, 8 / 10, 1⟩,
             ⟨9 / 10, 3 / 10, 4 / 10, 1⟩]
      ∧ (∀ col ∈ uploadedColors t,
          (0 ≤ col.x ∧ col.x ≤ 1) ∧ (0 ≤ col.y ∧ col.y ≤ 1)
            ∧ (0 ≤ col.z ∧ col.z ≤ 1) ∧ (0 ≤ col.w ∧ col.w ≤ 1))
      ∧ uploadedMatrices t
          = (ground c sn ++ base_row c sn ++ second_row c sn ++ top_row c sn).map
              (fun a => some ((P.mul s1.view_matrix).mul a.1))
      ∧ t = specFrame c sn s1 P := by
  refine ⟨_, _, _, resizeGL_1200_700 s, rfl, rfl, rfl, ?_⟩
  rw [paintGL_eq, scene_eq_SceneLayout]
  refine ⟨?_, ?_, ?_, ?_, ?_, ?_⟩
  · simp [drawCalls, SceneLayout, View.draw_square]
  · simp [drawCalls, SceneLayout, View.draw_square]
  · simp [uploadedColors, SceneLayout, View.draw_square]
  · simp [uploadedColors, SceneLayout, View.draw_square]
    norm_num
  · simp [uploadedMatrices, SceneLayout, View.draw_square]
  · simp [specFrame, SceneLayout, View.draw_square]

end ColoredSquares
